import Mathlib

/-!
Verification of the Refi content-rewriting proxy (`src/api/rep.js`).

The handler is embedded shallowly: the request, the upstream fetch and the
response are explicit data, JavaScript string/regex operations are embedded as
executable Lean functions over `List Char`, and the WHATWG `URL` constructor
used by the code is modelled by an executable parser/resolver covering the
subset of behaviour the handler exercises (http/https authority parsing with
bracketed IPv6 hosts, opaque non-special schemes, relative-reference
resolution with dot-segment removal; IDNA, percent-encoding of path/query
during serialization and input tab/newline stripping are outside the subset,
and none of the inputs used in the theorems need them).

The large browser-side script template that the handler splices into `<head>`
(source lines 162-408) is opaque text to the server: the server only
interpolates the proxy base and the base URL's href/origin/pathname into it
and never branches on its content, so it is threaded through the embedding as
a template parameter `ShimT` applied to exactly those values.
-/

set_option maxRecDepth 4096

namespace Refi

/-- ASCII letter test. -/
def isAsciiAlphaCh (c : Char) : Bool :=
  (65 ≤ c.toNat && c.toNat ≤ 90) || (97 ≤ c.toNat && c.toNat ≤ 122)

/-- ASCII digit test. -/
def isDigitCh (c : Char) : Bool :=
  48 ≤ c.toNat && c.toNat ≤ 57

/-- JavaScript regex `\w` class (ASCII word character). -/
def isWordCh (c : Char) : Bool :=
  isAsciiAlphaCh c || isDigitCh c || c = '_'

/-- JavaScript regex `\s` class, restricted to the ASCII whitespace forms. -/
def isWsCh (c : Char) : Bool :=
  c = ' ' || c = '\t' || c = '\n' || c = '\r' || c.toNat = 11 || c.toNat = 12

/-- Hexadecimal digit value. -/
def hexValCh (c : Char) : Option Nat :=
  if 48 ≤ c.toNat && c.toNat ≤ 57 then some (c.toNat - 48)
  else if 97 ≤ c.toNat && c.toNat ≤ 102 then some (c.toNat - 87)
  else if 65 ≤ c.toNat && c.toNat ≤ 70 then some (c.toNat - 55)
  else none

/-- ASCII lower-casing of one character (JS `toLowerCase` on the ASCII range). -/
def lowerCh (c : Char) : Char :=
  if 65 ≤ c.toNat && c.toNat ≤ 90 then Char.ofNat (c.toNat + 32) else c

/-- ASCII lower-casing of a string. -/
def lowerStr (s : String) : String :=
  String.mk (s.data.map lowerCh)

/-- The single-quote character, `'`. -/
def sqCh : Char := Char.ofNat 39

/-- The backtick character. -/
def btCh : Char := Char.ofNat 96

/-- The single-quote character as a string. -/
def sqStr : String := String.mk [sqCh]

/-- `pat` is a prefix of `cs` (exact characters). -/
def listPfx : List Char → List Char → Bool
  | [], _ => true
  | _ :: _, [] => false
  | p :: ps, c :: cs => p = c && listPfx ps cs

/-- JS `String.prototype.startsWith`. -/
def startsWithS (s pat : String) : Bool :=
  listPfx pat.data s.data

/-- Substring search on character lists. -/
def containsSub : List Char → List Char → Bool
  | cs, pat =>
    if listPfx pat cs then true
    else match cs with
      | [] => false
      | _ :: t => containsSub t pat

/-- JS `String.prototype.includes`. -/
def strContains (s pat : String) : Bool :=
  containsSub s.data pat.data

/-- JS `String.prototype.replace` with a plain-string pattern: replace the
first occurrence only. -/
def replaceFirstL (cs pat repl : List Char) : List Char :=
  if listPfx pat cs then repl ++ cs.drop pat.length
  else match cs with
    | [] => []
    | c :: t => c :: replaceFirstL t pat repl

/-- JS `String.prototype.replace` with a plain-string pattern. -/
def replaceFirstStr (s pat repl : String) : String :=
  String.mk (replaceFirstL s.data pat.data repl.data)

/-- Split a character list on a separator character (JS `split(sep)` for a
one-character separator). -/
def splitOnCh (sep : Char) : List Char → List (List Char)
  | [] => [[]]
  | c :: t =>
    match splitOnCh sep t with
    | r :: rs => if c = sep then [] :: r :: rs else (c :: r) :: rs
    | [] => [[c]]

/-- Interleave a separator between character lists. -/
def intercalateL (sep : List Char) : List (List Char) → List Char
  | [] => []
  | [x] => x
  | x :: xs => x ++ (sep ++ intercalateL sep xs)

/-- `String.intercalate`, kept on plain lists. -/
def intercalateStr (sep : String) (l : List String) : String :=
  String.mk (intercalateL sep.data (l.map String.data))

/-- Concatenation of a list of strings. -/
def joinStr (l : List String) : String :=
  String.mk (l.foldr (fun s acc => s.data ++ acc) [])

/-- UTF-8 bytes of a code point. -/
def utf8BytesOf (n : Nat) : List Nat :=
  if n < 0x80 then [n]
  else if n < 0x800 then [0xC0 + n / 64, 0x80 + n % 64]
  else if n < 0x10000 then [0xE0 + n / 4096, 0x80 + n / 64 % 64, 0x80 + n % 64]
  else [0xF0 + n / 262144, 0x80 + n / 4096 % 64, 0x80 + n / 64 % 64, 0x80 + n % 64]

/-- Upper-case hexadecimal digit. -/
def hexUp (n : Nat) : Char :=
  if n < 10 then Char.ofNat (48 + n) else Char.ofNat (55 + n)

/-- `%XX` percent-escape of a byte. -/
def pctByte (b : Nat) : List Char :=
  ['%', hexUp (b / 16), hexUp (b % 16)]

/-- Characters `encodeURIComponent` leaves unescaped. -/
def encUnreserved (c : Char) : Bool :=
  isAsciiAlphaCh c || isDigitCh c || c = '-' || c = '_' || c = '.' || c = '!' ||
  c = '~' || c = '*' || c = sqCh || c = '(' || c = ')'

/-- JS `encodeURIComponent`. -/
def encodeURIComponent (s : String) : String :=
  String.mk (s.data.flatMap fun c =>
    if encUnreserved c then [c] else (utf8BytesOf c.toNat).flatMap pctByte)

/-- Read one `%XX` escape. -/
def pctDec1 : List Char → Option (Nat × List Char)
  | '%' :: h1 :: h2 :: rest => do
    let a ← hexValCh h1
    let b ← hexValCh h2
    some (a * 16 + b, rest)
  | _ => none

/-- Read one `%XX` escape whose byte is a UTF-8 continuation byte. -/
def pctDecCont (cs : List Char) : Option (Nat × List Char) := do
  let (b, rest) ← pctDec1 cs
  if 0x80 ≤ b && b < 0xC0 then some (b % 64, rest) else none

/-- JS `decodeURIComponent`: percent-escapes must be well-formed hex pairs and
escaped octet runs must form valid UTF-8 sequences; all other characters pass
through unchanged.  `none` models the thrown `URIError`. -/
def decodeURIComponentL (fuel : Nat) (cs : List Char) : Option (List Char) :=
  match fuel, cs with
  | _, [] => some []
  | 0, _ => none
  | fuel + 1, cs =>
    match cs with
    | [] => some []
    | '%' :: rest0 => do
      let (b1, rest1) ← pctDec1 ('%' :: rest0)
      if b1 < 0x80 then
        let tail ← decodeURIComponentL fuel rest1
        some (Char.ofNat b1 :: tail)
      else if 0xC2 ≤ b1 && b1 < 0xE0 then
        let (b2, rest2) ← pctDecCont rest1
        let n := (b1 - 0xC0) * 64 + b2
        if h : n.isValidChar then
          let tail ← decodeURIComponentL fuel rest2
          some (Char.ofNatAux n h :: tail)
        else none
      else if 0xE0 ≤ b1 && b1 < 0xF0 then
        let (b2, rest2) ← pctDecCont rest1
        let (b3, rest3) ← pctDecCont rest2
        let n := (b1 - 0xE0) * 4096 + b2 * 64 + b3
        if h : n.isValidChar then
          let tail ← decodeURIComponentL fuel rest3
          some (Char.ofNatAux n h :: tail)
        else none
      else if 0xF0 ≤ b1 && b1 < 0xF5 then
        let (b2, rest2) ← pctDecCont rest1
        let (b3, rest3) ← pctDecCont rest2
        let (b4, rest4) ← pctDecCont rest3
        let n := (b1 - 0xF0) * 262144 + b2 * 4096 + b3 * 64 + b4
        if h : n.isValidChar then
          let tail ← decodeURIComponentL fuel rest4
          some (Char.ofNatAux n h :: tail)
        else none
      else none
    | c :: rest => do
      let tail ← decodeURIComponentL fuel rest
      some (c :: tail)

/-- JS `decodeURIComponent` on strings. -/
def decodeURIComponent (s : String) : Option String :=
  (decodeURIComponentL s.data.length s.data).map String.mk

/-- Characters `URLSearchParams` serialization leaves unescaped. -/
def formUnreserved (c : Char) : Bool :=
  isAsciiAlphaCh c || isDigitCh c || c = '*' || c = '-' || c = '.' || c = '_'

/-- `application/x-www-form-urlencoded` escaping of one string. -/
def formEncodeStr (s : String) : String :=
  String.mk (s.data.flatMap fun c =>
    if formUnreserved c then [c]
    else if c = ' ' then ['+']
    else (utf8BytesOf c.toNat).flatMap pctByte)

/-- `new URLSearchParams(params).toString()`. -/
def formUrlEncode (ps : List (String × String)) : String :=
  intercalateStr "&" (ps.map fun p => formEncodeStr p.1 ++ "=" ++ formEncodeStr p.2)

/-! ### WHATWG URL model -/

/-- A parsed URL.  Special-scheme (http/https) URLs carry an authority and a
normalized path; other schemes are kept opaque, mirroring WHATWG
cannot-be-a-base URLs. -/
structure URL where
  scheme : String
  opq : Option String
  host : String
  port : Option Nat
  pathStr : String
  query : Option String
  fragment : Option String
deriving DecidableEq, Repr

/-- RFC 3986 / WHATWG dot-segment removal on a path starting with `/`. -/
def rdsGo : List String → List String → List String
  | [], stack => stack.reverse
  | s :: rest, stack =>
    if s = "." || s = ".." then
      let stack' := if s = ".." then stack.tail else stack
      if rest.isEmpty then ("" :: stack').reverse else rdsGo rest stack'
    else rdsGo rest (s :: stack)

/-- Dot-segment removal on a slash-prefixed path string. -/
def removeDotSegments (p : String) : String :=
  "/" ++ intercalateStr "/" (rdsGo (((splitOnCh '/' p.data).map String.mk).drop 1) [])

/-- The directory part of a path: everything up to and including the last
slash (WHATWG "shorten path" plus the trailing slash). -/
def dirOf (p : String) : String :=
  intercalateStr "/" ((splitOnCh '/' p.data).map String.mk).dropLast ++ "/"

/-- Split off a leading URL scheme: an ASCII letter, then letters, digits,
`+`, `-` or `.`, terminated by `:`.  Returns the scheme (original case) and
the remainder after the colon. -/
def splitScheme (cs : List Char) : Option (List Char × List Char) :=
  match cs with
  | c :: rest =>
    if isAsciiAlphaCh c then
      let tail := rest.takeWhile fun d =>
        isAsciiAlphaCh d || isDigitCh d || d = '+' || d = '-' || d = '.'
      match rest.drop tail.length with
      | ':' :: after => some (c :: tail, after)
      | _ => none
    else none
  | [] => none

/-- Characters that may not appear in a (non-bracketed) host. -/
def hostForbidden (c : Char) : Bool :=
  c.toNat = 0 || c = '\t' || c = '\n' || c = '\r' || c = ' ' || c = '#' ||
  c = '/' || c = ':' || c = '<' || c = '>' || c = '?' || c = '@' ||
  c = '[' || c = '\\' || c = ']' || c = '^' || c = '|' || c = '%'

/-- Characters allowed inside an IPv6 bracket host. -/
def ipv6Allowed (c : Char) : Bool :=
  (hexValCh c).isSome || c = ':' || c = '.'

/-- Parse `host[:port]` from an authority (after userinfo stripping).
Bracketed IPv6 hosts keep their brackets, as WHATWG `url.hostname` does. -/
def parseHostPort (scheme : String) (a : List Char) : Option (String × Option Nat) := do
  let mkPort : List Char → Option (Option Nat) := fun ps =>
    if ps.isEmpty then some none
    else if ps.all isDigitCh then
      let n := ps.foldl (fun acc c => acc * 10 + (c.toNat - 48)) 0
      if n < 65536 then
        if (scheme = "http" && n = 80) || (scheme = "https" && n = 443) then some none
        else some (some n)
      else none
    else none
  match a with
  | [] => none
  | '[' :: rest =>
    let inside := rest.takeWhile (· ≠ ']')
    match rest.drop inside.length with
    | ']' :: after =>
      if inside.isEmpty || !(inside.all ipv6Allowed) then none
      else
        let host := String.mk ('[' :: inside.map lowerCh ++ [']'])
        match after with
        | [] => some (host, none)
        | ':' :: ps => do let p ← mkPort ps; some (host, p)
        | _ => none
    | _ => none
  | _ =>
    let hostCs := a.takeWhile (· ≠ ':')
    let after := a.drop hostCs.length
    if hostCs.isEmpty || hostCs.any hostForbidden then none
    else
      let host := String.mk (hostCs.map lowerCh)
      match after with
      | [] => some (host, none)
      | ':' :: ps => do let p ← mkPort ps; some (host, p)
      | _ => none

/-- Split `path?query#fragment` pieces (each possibly absent). -/
def splitPathQueryFrag (cs : List Char) : List Char × Option (List Char) × Option (List Char) :=
  let path := cs.takeWhile fun c => c ≠ '?' && c ≠ '#'
  let rest := cs.drop path.length
  match rest with
  | '?' :: r =>
    let q := r.takeWhile (· ≠ '#')
    match r.drop q.length with
    | '#' :: f => (path, some q, some f)
    | _ => (path, some q, none)
  | '#' :: f => (path, none, some f)
  | _ => (path, none, none)

/-- `new URL(input)` on an absolute URL string. -/
def URL.parse (s : String) : Option URL := do
  let (schemeCs, rest) ← splitScheme s.data
  let scheme := lowerStr (String.mk schemeCs)
  if scheme = "http" || scheme = "https" then
    -- special scheme: skip any run of slashes, then authority, then path
    let rest := rest.dropWhile fun c => c = '/' || c = '\\'
    let auth := rest.takeWhile fun c => c ≠ '/' && c ≠ '\\' && c ≠ '?' && c ≠ '#'
    let afterAuth := rest.drop auth.length
    let hostPart :=
      if auth.contains '@' then (auth.reverse.takeWhile (· ≠ '@')).reverse else auth
    let (host, port) ← parseHostPort scheme hostPart
    let (pathCs, q, f) := splitPathQueryFrag afterAuth
    let path0 := String.mk (pathCs.map fun c => if c = '\\' then '/' else c)
    let path := if path0 = "" then "/" else removeDotSegments path0
    some ⟨scheme, none, host, port, path, q.map String.mk, f.map String.mk⟩
  else
    some ⟨scheme, some (String.mk rest), "", none, "", none, none⟩

/-- `url.hostname` (bracketed for IPv6 hosts, as in WHATWG). -/
def URL.hostname (u : URL) : String := u.host

/-- `url.pathname`. -/
def URL.pathname (u : URL) : String :=
  match u.opq with
  | some o => o
  | none => u.pathStr

/-- Serialized port suffix. -/
def URL.portSuffix (u : URL) : String :=
  match u.port with
  | some p => ":" ++ toString p
  | none => ""

/-- `url.origin` (`"null"` for opaque URLs). -/
def URL.origin (u : URL) : String :=
  match u.opq with
  | some _ => "null"
  | none => u.scheme ++ "://" ++ u.host ++ u.portSuffix

/-- `url.href`. -/
def URL.href (u : URL) : String :=
  match u.opq with
  | some o => u.scheme ++ ":" ++ o
  | none =>
    u.scheme ++ "://" ++ u.host ++ u.portSuffix ++ u.pathStr ++
    (match u.query with | some q => "?" ++ q | none => "") ++
    (match u.fragment with | some f => "#" ++ f | none => "")

/-- `new URL(input, base)`: relative-reference resolution against a parsed
base. -/
def URL.resolve (s : String) (base : URL) : Option URL :=
  match splitScheme s.data with
  | some _ => URL.parse s
  | none =>
    if base.opq.isSome then none
    else match s.data with
    | [] => some { base with fragment := none }
    | '#' :: f => some { base with fragment := some (String.mk f) }
    | '?' :: r =>
      let q := r.takeWhile (· ≠ '#')
      let f := match r.drop q.length with
        | '#' :: fs => some (String.mk fs)
        | _ => none
      some { base with query := some (String.mk q), fragment := f }
    | '/' :: '/' :: r => URL.parse (base.scheme ++ "://" ++ String.mk r)
    | '/' :: r =>
      let (pathCs, q, f) := splitPathQueryFrag ('/' :: r)
      let path := removeDotSegments
        (String.mk (pathCs.map fun c => if c = '\\' then '/' else c))
      some { base with pathStr := path, query := q.map String.mk,
                       fragment := f.map String.mk }
    | cs =>
      let (pathCs, q, f) := splitPathQueryFrag cs
      let merged := dirOf base.pathStr ++
        String.mk (pathCs.map fun c => if c = '\\' then '/' else c)
      some { base with pathStr := removeDotSegments merged,
                       query := q.map String.mk, fragment := f.map String.mk }

/-! ### Regex scanners

Each of the handler's `String.replace(regex, fn)` calls is embedded as a
scanner specialized to that regex: `try…At` recognizes a match at the current
position (with the regex's exact alternation order, laziness and character
classes), a `…Split` function produces the global leftmost-match
decomposition of the input into literal characters and matches, and a pass
maps the source's replacer callback over it.  The decomposition never depends
on the proxy base or the base URL, matching JS `replace` semantics (matching
happens on the original string; replacements are assembled separately). -/

/-- Case-insensitive literal prefix match; returns the original-case matched
characters and the remainder. -/
def ciPfx : List Char → List Char → Option (List Char × List Char)
  | [], cs => some ([], cs)
  | _ :: _, [] => none
  | p :: ps, c :: cs =>
    if lowerCh c = lowerCh p then
      match ciPfx ps cs with
      | some (m, r) => some (c :: m, r)
      | none => none
    else none

/-- First pattern of a list that ci-prefix-matches (regex alternation order). -/
def firstCiPfx : List String → List Char → Option (List Char × List Char)
  | [], _ => none
  | n :: ns, cs =>
    match ciPfx n.data cs with
    | some r => some r
    | none => firstCiPfx ns cs

/-- HTML quote characters `["']`. -/
def quoteCh (c : Char) : Bool := c = '"' || c = sqCh

/-- Tag alternatives of the attribute-rewrite regex, in source order. -/
def tagNames : List String :=
  ["a", "img", "script", "link", "iframe", "form", "source", "video", "audio",
   "embed", "object"]

/-- Attribute-name alternatives of the attribute-rewrite regex, in source
order. -/
def attrNames : List String :=
  ["href", "src", "action", "data", "poster", "srcset"]

/-- Try `name=["'][^"']+["']` at the head of `cs` for one attribute name;
returns (attr-name+`=`+quote, value, closing quote, rest). -/
def tryAttrName (name : String) (cs : List Char) :
    Option (List Char × List Char × List Char × List Char) := do
  let (m, r1) ← ciPfx name.data cs
  match r1 with
  | '=' :: q :: r2 =>
    if quoteCh q then
      let v := r2.takeWhile fun c => !quoteCh c
      if v.isEmpty then none
      else match r2.drop v.length with
        | c4 :: r3 => if quoteCh c4 then some (m ++ ['=', q], v, [c4], r3) else none
        | [] => none
    else none
  | _ => none

/-- Attribute alternation `(?:href|src|action|data|poster|srcset)` with
backtracking into later alternatives. -/
def tryAttrAlt : List String → List Char → Option (List Char × List Char × List Char × List Char)
  | [], _ => none
  | n :: ns, cs =>
    match tryAttrName n cs with
    | some r => some r
    | none => tryAttrAlt ns cs

/-- The lazy `[^>]+?` span: consume at least one non-`>` character, trying
the attribute sub-pattern after each consumed character (shortest span
first). Returns (span, g2, g3, g4, rest). -/
def attrLazy : Nat → List Char → List Char →
    Option (List Char × List Char × List Char × List Char × List Char)
  | 0, _, _ => none
  | fuel + 1, accRev, cs =>
    match cs with
    | [] => none
    | c :: rest =>
      if c = '>' then none
      else
        match tryAttrAlt attrNames rest with
        | some (g2, g3, g4, r) => some ((c :: accRev).reverse, g2, g3, g4, r)
        | none => attrLazy fuel (c :: accRev) rest

/-- Try the whole attribute-rewrite regex at the current position. -/
def tryAttrAt (cs : List Char) :
    Option (List Char × List Char × List Char × List Char × List Char) :=
  match cs with
  | '<' :: t =>
    match firstCiPfx tagNames t with
    | some (tagOrig, afterTag) =>
      match attrLazy afterTag.length [] afterTag with
      | some (span, g2, g3, g4, rest) =>
        some ('<' :: (tagOrig ++ span), g2, g3, g4, rest)
      | none => none
    | none => none
  | _ => none

/-- A piece of the attribute-regex decomposition of an HTML string. -/
inductive AChunk where
  | lit (c : Char)
  | hit (g1 g2 g3 g4 : String)
deriving DecidableEq, Repr

/-- Global leftmost decomposition for the attribute-rewrite regex. -/
def attrSplit : Nat → List Char → List AChunk
  | 0, cs => cs.map .lit
  | fuel + 1, cs =>
    match tryAttrAt cs with
    | some (g1, g2, g3, g4, rest) =>
      .hit (String.mk g1) (String.mk g2) (String.mk g3) (String.mk g4) ::
        attrSplit fuel rest
    | none =>
      match cs with
      | [] => []
      | c :: t => .lit c :: attrSplit fuel t

/-- The no-op guard of the attribute replacer (source line 416). -/
def attrNoOp (pb u : String) : Bool :=
  startsWithS u pb || startsWithS u "data:" || startsWithS u "javascript:" ||
  startsWithS u "blob:" || startsWithS u "#"

/-- JS `String.prototype.trim` (ASCII whitespace forms). -/
def trimStr (s : String) : String :=
  String.mk (((s.data.dropWhile isWsCh).reverse.dropWhile isWsCh).reverse)

/-- Tokenizer used by `splitWsRuns`. -/
def wsTok : Nat → List Char → List (List Char)
  | 0, _ => []
  | _, [] => []
  | fuel + 1, cs =>
    let tok := cs.takeWhile fun c => !isWsCh c
    let rest := (cs.drop tok.length).dropWhile isWsCh
    tok :: wsTok fuel rest

/-- JS `split(/\s+/)` on an already-trimmed string: whitespace-run
tokenization, with `[""]` for the empty string. -/
def splitWsRuns (cs : List Char) : List (List Char) :=
  match cs with
  | [] => [[]]
  | _ => wsTok cs.length cs

/-- The srcset branch of the attribute replacer (source lines 422-429):
split on commas, rewrite each candidate URL, keep its descriptor suffix; a
resolution failure anywhere propagates (the enclosing `try` catches it). -/
def srcsetRewrite (pb : String) (base : URL) (v : String) : Option String := do
  let parts ← ((splitOnCh ',' v.data).map String.mk).mapM fun part => do
    let toks := splitWsRuns (trimStr part).data
    match toks with
    | [] => none
    | u :: rest => do
      let ru ← URL.resolve (String.mk u) base
      some (intercalateStr " " ((pb ++ encodeURIComponent ru.href) :: rest.map String.mk))
  some (intercalateStr ", " parts)

/-- The attribute-rewrite replacer callback (source lines 414-447). -/
def attrReplacer (pb : String) (base : URL) (g1 g2 g3 g4 : String) : String :=
  let m := g1 ++ g2 ++ g3 ++ g4
  if attrNoOp pb g3 then m
  else if strContains g2 "srcset" then
    match srcsetRewrite pb base g3 with
    | some r => g1 ++ g2 ++ r ++ g4
    | none => m
  else if startsWithS g3 "?" || startsWithS g3 "&" then
    g1 ++ g2 ++ pb ++ encodeURIComponent (base.origin ++ base.pathname ++ g3) ++ g4
  else if startsWithS g3 "/" && !startsWithS g3 "//" then
    g1 ++ g2 ++ pb ++ encodeURIComponent (base.origin ++ g3) ++ g4
  else
    match URL.resolve g3 base with
    | some u => g1 ++ g2 ++ pb ++ encodeURIComponent u.href ++ g4
    | none => m

/-- Render one attribute chunk. -/
def attrRender (pb : String) (base : URL) : AChunk → String
  | .lit c => String.mk [c]
  | .hit g1 g2 g3 g4 => attrReplacer pb base g1 g2 g3 g4

/-- The HTML attribute-rewrite pass (source lines 412-448). -/
def attrPass (pb : String) (base : URL) (s : String) : String :=
  joinStr ((attrSplit s.data.length s.data).map (attrRender pb base))

/-- Character class `[^'")\s]` of the css `url(...)` regex. -/
def cssUrlCapCh (c : Char) : Bool :=
  !(c = sqCh || c = '"' || c = ')' || isWsCh c)

/-- Try `url\s*\(\s*['"]?([^'")\s]+)['"]?\s*\)` at the current position;
returns (full match, capture, rest). -/
def tryCssUrlAt (cs : List Char) : Option (List Char × List Char × List Char) := do
  let (m1, r1) ← ciPfx "url".data cs
  let ws1 := r1.takeWhile isWsCh
  match r1.drop ws1.length with
  | '(' :: r2 =>
    let ws2 := r2.takeWhile isWsCh
    let r3 := r2.drop ws2.length
    let (oq, r4) := match r3 with
      | c :: t => if quoteCh c then ([c], t) else (([] : List Char), r3)
      | [] => ([], r3)
    let cap := r4.takeWhile cssUrlCapCh
    if cap.isEmpty then none
    else
      let r5 := r4.drop cap.length
      let (cq, r6) := match r5 with
        | c :: t => if quoteCh c then ([c], t) else (([] : List Char), r5)
        | [] => ([], r5)
      let ws3 := r6.takeWhile isWsCh
      match r6.drop ws3.length with
      | ')' :: r7 =>
        some (m1 ++ ws1 ++ ['('] ++ ws2 ++ oq ++ cap ++ cq ++ ws3 ++ [')'], cap, r7)
      | _ => none
  | _ => none

/-- A piece of the css `url(...)` decomposition. -/
inductive CChunk where
  | lit (c : Char)
  | hit (m cap : String)
deriving DecidableEq, Repr

/-- Global leftmost decomposition for the css `url(...)` regex. -/
def cssUrlSplit : Nat → List Char → List CChunk
  | 0, cs => cs.map .lit
  | fuel + 1, cs =>
    match tryCssUrlAt cs with
    | some (m, cap, rest) => .hit (String.mk m) (String.mk cap) :: cssUrlSplit fuel rest
    | none =>
      match cs with
      | [] => []
      | c :: t => .lit c :: cssUrlSplit fuel t

/-- The css `url(...)` replacer callback (source lines 453-461 and 490-497):
only proxy-prefixed and `data:` references are exempt. -/
def cssUrlReplacer (pb : String) (base : URL) (m cap : String) : String :=
  if startsWithS cap pb || startsWithS cap "data:" then m
  else match URL.resolve cap base with
    | some u => "url(" ++ sqStr ++ pb ++ encodeURIComponent u.href ++ sqStr ++ ")"
    | none => m

/-- Render one css `url(...)` chunk. -/
def cssUrlRender (pb : String) (base : URL) : CChunk → String
  | .lit c => String.mk [c]
  | .hit m cap => cssUrlReplacer pb base m cap

/-- The css `url(...)` rewrite pass. -/
def cssUrlPass (pb : String) (base : URL) (s : String) : String :=
  joinStr ((cssUrlSplit s.data.length s.data).map (cssUrlRender pb base))

/-- Character class `[^'")\s;]` of the `@import` regex. -/
def cssImpCapCh (c : Char) : Bool :=
  !(c = sqCh || c = '"' || c = ')' || c = ';' || isWsCh c)

/-- Try `@import\s+(['"]?)([^'")\s;]+)\1` at the current position; returns
(full match, quote group, capture, rest). -/
def tryCssImportAt (cs : List Char) :
    Option (List Char × List Char × List Char × List Char) := do
  let (m1, r1) ← ciPfx "@import".data cs
  let ws := r1.takeWhile isWsCh
  if ws.isEmpty then none
  else
    let r2 := r1.drop ws.length
    match r2 with
    | c :: t =>
      if quoteCh c then
        let cap := t.takeWhile cssImpCapCh
        if cap.isEmpty then none
        else match t.drop cap.length with
          | c2 :: r3 =>
            if c2 = c then some (m1 ++ ws ++ [c] ++ cap ++ [c2], [c], cap, r3)
            else none
          | [] => none
      else
        let cap := r2.takeWhile cssImpCapCh
        if cap.isEmpty then none
        else some (m1 ++ ws ++ cap, [], cap, r2.drop cap.length)
    | [] => none

/-- A piece of the `@import` decomposition. -/
inductive IChunk where
  | lit (c : Char)
  | hit (m q cap : String)
deriving DecidableEq, Repr

/-- Global leftmost decomposition for the `@import` regex. -/
def cssImportSplit : Nat → List Char → List IChunk
  | 0, cs => cs.map .lit
  | fuel + 1, cs =>
    match tryCssImportAt cs with
    | some (m, q, cap, rest) =>
      .hit (String.mk m) (String.mk q) (String.mk cap) :: cssImportSplit fuel rest
    | none =>
      match cs with
      | [] => []
      | c :: t => .lit c :: cssImportSplit fuel t

/-- The `@import` replacer callback (source lines 476-484). -/
def cssImportReplacer (pb : String) (base : URL) (m q cap : String) : String :=
  if startsWithS cap pb || startsWithS cap "data:" then m
  else match URL.resolve cap base with
    | some u => "@import " ++ q ++ pb ++ encodeURIComponent u.href ++ q
    | none => m

/-- Render one `@import` chunk. -/
def cssImportRender (pb : String) (base : URL) : IChunk → String
  | .lit c => String.mk [c]
  | .hit m q cap => cssImportReplacer pb base m q cap

/-- The css `@import` rewrite pass (source lines 474-485). -/
def cssImportPass (pb : String) (base : URL) (s : String) : String :=
  joinStr ((cssImportSplit s.data.length s.data).map (cssImportRender pb base))

/-- JS module-specifier quote characters (single, double, backtick). -/
def jsQuoteCh (c : Char) : Bool := c = '"' || c = sqCh || c = btCh

/-- Try the JS import regex at the current position, given the previous
character for the `\b` word boundary; returns (full match, capture, rest). -/
def tryJsAt (prev : Option Char) (cs : List Char) :
    Option (List Char × List Char × List Char) := do
  let wb := match prev with | none => true | some p => !isWordCh p
  if !wb then none
  else
    let kw : Option (List Char × List Char) :=
      (do
        let (m, r) ← ciPfx "import".data cs
        let ws := r.takeWhile isWsCh
        match r.drop ws.length with
        | '(' :: r2 => some (m ++ ws ++ ['('], r2)
        | _ => none) <|>
      ciPfx "from".data cs
    match kw with
    | none => none
    | some (g1, r1) =>
      let ws2 := r1.takeWhile isWsCh
      match r1.drop ws2.length with
      | q :: r2 =>
        if jsQuoteCh q then
          let cap := r2.takeWhile fun c => !jsQuoteCh c
          if cap.isEmpty then none
          else match r2.drop cap.length with
            | cq :: r3 =>
              if jsQuoteCh cq then some (g1 ++ ws2 ++ [q] ++ cap ++ [cq], cap, r3)
              else none
            | [] => none
        else none
      | [] => none

/-- A piece of the JS import decomposition. -/
inductive JChunk where
  | lit (c : Char)
  | hit (m cap : String)
deriving DecidableEq, Repr

/-- Global leftmost decomposition for the JS import regex, tracking the
previous character for the word boundary. -/
def jsSplit : Nat → Option Char → List Char → List JChunk
  | 0, _, cs => cs.map .lit
  | fuel + 1, prev, cs =>
    match tryJsAt prev cs with
    | some (m, cap, rest) =>
      .hit (String.mk m) (String.mk cap) :: jsSplit fuel m.getLast? rest
    | none =>
      match cs with
      | [] => []
      | c :: t => .lit c :: jsSplit fuel (some c) t

/-- The JS import replacer callback (source lines 514-526): absolute and
root/dot-relative specifiers are rewritten via first-occurrence string
replacement inside the match, everything else is untouched. -/
def jsReplacer (pb : String) (base : URL) (m cap : String) : String :=
  if startsWithS cap "http://" || startsWithS cap "https://" then
    match URL.resolve cap base with
    | some u => replaceFirstStr m cap (pb ++ encodeURIComponent u.href)
    | none => m
  else if startsWithS cap "." || startsWithS cap "/" then
    match URL.resolve cap base with
    | some u => replaceFirstStr m cap (pb ++ encodeURIComponent u.href)
    | none => m
  else m

/-- Render one JS chunk. -/
def jsRender (pb : String) (base : URL) : JChunk → String
  | .lit c => String.mk [c]
  | .hit m cap => jsReplacer pb base m cap

/-- The JS import rewrite pass (source lines 512-527). -/
def jsPass (pb : String) (base : URL) (s : String) : String :=
  joinStr ((jsSplit s.data.length none s.data).map (jsRender pb base))

/-- Try `<base\s+[^>]*>` at the current position. -/
def tryBaseTagAt (cs : List Char) : Option (List Char × List Char) := do
  let (m1, r1) ← ciPfx "<base".data cs
  let ws := r1.takeWhile isWsCh
  if ws.isEmpty then none
  else
    let r2 := r1.drop ws.length
    let body := r2.takeWhile (· ≠ '>')
    match r2.drop body.length with
    | '>' :: r3 => some (m1 ++ ws ++ body ++ ['>'], r3)
    | _ => none

/-- Global deletion scanner for `<base\s+[^>]*>`. -/
def stripBaseGo : Nat → List Char → List Char
  | 0, cs => cs
  | fuel + 1, cs =>
    match tryBaseTagAt cs with
    | some (_, rest) => stripBaseGo fuel rest
    | none =>
      match cs with
      | [] => []
      | c :: t => c :: stripBaseGo fuel t

/-- Remove pre-existing `<base>` tags (source line 156). -/
def stripBaseTags (s : String) : String :=
  String.mk (stripBaseGo s.data.length s.data)

/-- Try `<head[^>]*>` at the current position. -/
def tryHeadAt (cs : List Char) : Option (List Char × List Char) := do
  let (m1, r1) ← ciPfx "<head".data cs
  let body := r1.takeWhile (· ≠ '>')
  match r1.drop body.length with
  | '>' :: r2 => some (m1 ++ body ++ ['>'], r2)
  | _ => none

/-- First-match scanner for the head injection. -/
def injectAfterHead (inj : String) : Nat → List Char → List Char
  | 0, cs => cs
  | fuel + 1, cs =>
    match tryHeadAt cs with
    | some (m, rest) => m ++ (inj.data ++ rest)
    | none =>
      match cs with
      | [] => []
      | c :: t => c :: injectAfterHead inj fuel t

/-- Inject the browser-side script right after the first `<head...>` tag
(source lines 159-409); `inj` is the full injected text. -/
def injectShim (inj : String) (s : String) : String :=
  String.mk (injectAfterHead inj s.data.length s.data)

/-- `s` ends with `pat`. -/
def endsWithStr (s pat : String) : Bool :=
  listPfx pat.data.reverse s.data.reverse

/-! ### The handler -/

/-- The normalized incoming request handed to the handler by the transport
layer: method, the `url` query parameter, the remaining query parameters (in
object-key order), and the headers the handler reads.  `referer` models
`req.headers.referer || req.headers.referrer`.  The `Accept`/`Accept-Language`
forwarding and User-Agent rotation (source lines 88-114) only shape the
outgoing request, which the upstream oracle abstracts, so they carry no
observable state here. -/
structure Req where
  method : String
  urlParam : Option String
  otherParams : List (String × String)
  referer : Option String
  host : String
  xfp : Option String
deriving DecidableEq, Repr

/-- The upstream response as the handler observes it: the `content-length`
and `content-type` headers, `response.url` (the final post-redirect URL) and
the full body bytes delivered by `response.arrayBuffer()`. -/
structure UpstreamResp where
  contentLength : Option String
  contentType : Option String
  finalUrl : String
  body : String
deriving DecidableEq, Repr

/-- Outcome of `await fetch(url, …)` under the 15-second abort timer
(source lines 95-116): a response, an `AbortError` thrown because the timer
cancelled the in-flight request past the deadline, or any other rejection
with its message. -/
inductive FetchOutcome where
  | success (resp : UpstreamResp)
  | timeout
  | netError (msg : String)
deriving DecidableEq, Repr

/-- What the handler sends back: status, body text, and whether the upstream
fetch was ever issued (response headers are not modelled). -/
structure HandlerResult where
  status : Nat
  body : String
  fetchCalled : Bool
deriving DecidableEq, Repr

/-- The browser-side script template (source lines 162-408) as a function of
the four interpolated values: proxy base, `base.href`, `base.origin`,
`base.pathname`.  The server never inspects the produced text. -/
abbrev ShimT := String → String → String → String → String

/-- JS `parseInt` on a decimal string: leading whitespace, optional sign,
leading digit run; `none` models `NaN`. -/
def jsParseIntLeading (s : String) : Option Int :=
  let cs := s.data.dropWhile isWsCh
  let (sign, cs2) : Int × List Char := match cs with
    | '-' :: t => (-1, t)
    | '+' :: t => (1, t)
    | _ => (1, cs)
  let ds := cs2.takeWhile isDigitCh
  if ds.isEmpty then none
  else some (sign * ds.foldl (fun a c => a * 10 + ((c.toNat : Int) - 48)) 0)

/-- The response-size cap, 10 MiB (source line 120). -/
def capBytes : Nat := 10 * 1024 * 1024

/-- `contentLength && parseInt(contentLength) > 10 * 1024 * 1024`
(source line 120). -/
def clExceeds (cl : Option String) : Bool :=
  match cl with
  | none => false
  | some s =>
    s != "" &&
      (match jsParseIntLeading s with
       | some n => n > (capBytes : Int)
       | none => false)

/-- First match of `/[?&]url=([^&]+)/` (case-sensitive, source line 22);
returns the captured group. -/
def refUrlFind : Nat → List Char → Option (List Char)
  | 0, _ => none
  | fuel + 1, cs =>
    match cs with
    | [] => none
    | c :: t =>
      if c = '?' || c = '&' then
        if listPfx "url=".data t then
          let cap := (t.drop 4).takeWhile (· ≠ '&')
          if cap.isEmpty then refUrlFind fuel t else some cap
        else refUrlFind fuel t
      else refUrlFind fuel t

/-- The form-resubmission reconstruction (source lines 17-55): recover a
target URL from the referer's embedded `url` parameter, a heuristic path and
the current query parameters.  Every failure site in the source responds with
status 400, so only the message is carried here; the two catch-path messages
use the V8 `e.message` texts for the `decodeURIComponent` and `new URL`
failures. -/
def reconstructUrl (otherParams : List (String × String)) (referer : Option String) :
    Except String String :=
  match referer with
  | none => .error "Missing url parameter (no referer)"
  | some r =>
    match refUrlFind r.data.length r.data with
    | none => .error "Missing url parameter - no base URL in referer"
    | some cap =>
      match decodeURIComponent (String.mk cap) with
      | none => .error "Error: URI malformed"
      | some baseUrl =>
        match URL.parse baseUrl with
        | none => .error "Error: Invalid URL"
        | some b =>
          let qTruthy := match otherParams.lookup "q" with
            | some v => v != ""
            | none => false
          let targetPath :=
            if qTruthy && strContains b.hostname "google." then "/search"
            else if b.pathname = "/" then "/search"
            else b.pathname
          .ok (b.origin ++ targetPath ++ "?" ++ formUrlEncode otherParams)

/-- The `^https?:\/\//i` protocol test (source line 65). -/
def protocolOk (d : String) : Bool :=
  startsWithS (lowerStr d) "http://" || startsWithS (lowerStr d) "https://"

/-- URL validation and decoding (source lines 59-74): percent-decode, test
the protocol, parse.  Returns the decoded string (the one later fetched) and
its parse, or the 400-response message. -/
def validateUrl (u : String) : Except String (String × URL) :=
  match decodeURIComponent u with
  | none => .error "Invalid URL encoding"
  | some d =>
    if !protocolOk d then .error "Invalid URL protocol"
    else
      match URL.parse d with
      | none => .error "Malformed URL"
      | some p => .ok (d, p)

/-- The `172.16.` – `172.31.` prefixes of the `^172\.(1[6-9]|2[0-9]|3[0-1])\.`
pattern. -/
def blocked172 : List String :=
  ["172.16.", "172.17.", "172.18.", "172.19.", "172.20.", "172.21.",
   "172.22.", "172.23.", "172.24.", "172.25.", "172.26.", "172.27.",
   "172.28.", "172.29.", "172.30.", "172.31."]

/-- The exact-match deny list (source line 82). -/
def blockedHosts : List String :=
  ["metadata.google.internal", "169.254.169.254", "metadata.azure.com"]

/-- The SSRF guard (source lines 78-84): the `blockedPatterns` regexes applied
to the lower-cased hostname, then the `blockedHosts` membership test. -/
def hostBlocked (h : String) : Bool :=
  h = "localhost" || startsWithS h "127." || startsWithS h "10." ||
  blocked172.any (fun p => startsWithS h p) ||
  startsWithS h "192.168." || startsWithS h "169.254." ||
  h = "::1" || startsWithS h "fe80:" || startsWithS h "fc00:" ||
  startsWithS h "fd00:" || blockedHosts.contains h

/-- The proxy base URL (source lines 129-130). -/
def proxyBaseOf (req : Req) : String :=
  (match req.xfp with
   | some p => if p = "" then "https" else p
   | none => "https") ++ "://" ++ req.host ++ "/api/rep?url="

/-- The HTML branch (source lines 152-462): strip `<base>` tags, inject the
script after `<head>`, rewrite attributes, rewrite inline css `url(...)`. -/
def htmlRewrite (shimT : ShimT) (pb : String) (base : URL) (html : String) : String :=
  let h1 := stripBaseTags html
  let h2 := injectShim (shimT pb base.href base.origin base.pathname) h1
  let h3 := attrPass pb base h2
  cssUrlPass pb base h3

/-- Everything after the fetch resolves (source lines 117-544): size cap,
content classification, the per-type rewrites, the passthrough branch, and
the catch-clause mapping of `AbortError` to 504 and other failures to 500. -/
def processUpstream (shimT : ShimT) (req : Req) (outcome : FetchOutcome) : HandlerResult :=
  match outcome with
  | .timeout => ⟨504, "Request timeout", true⟩
  | .netError m => ⟨500, "Fetch failed: " ++ m, true⟩
  | .success resp =>
    if clExceeds resp.contentLength then ⟨413, "Content too large", true⟩
    else
      let ct := resp.contentType.getD ""
      match URL.parse resp.finalUrl with
      | none => ⟨500, "Fetch failed: Invalid URL", true⟩
      | some base =>
        let pb := proxyBaseOf req
        if strContains ct "text/html" then
          ⟨200, htmlRewrite shimT pb base resp.body, true⟩
        else if strContains ct "text/css" || endsWithStr base.pathname ".css" then
          ⟨200, cssUrlPass pb base (cssImportPass pb base resp.body), true⟩
        else if strContains ct "javascript" || strContains ct "ecmascript" ||
            endsWithStr base.pathname ".js" then
          ⟨200, jsPass pb base resp.body, true⟩
        else ⟨200, resp.body, true⟩

/-- Validation, guard and dispatch for an effective target-URL string
(source lines 59-116). -/
def afterUrl (shimT : ShimT) (req : Req) (upstream : String → FetchOutcome)
    (u0 : String) : HandlerResult :=
  match validateUrl u0 with
  | .error m => ⟨400, m, false⟩
  | .ok (u, parsed) =>
    if hostBlocked (lowerStr parsed.hostname) then
      ⟨403, "Access to private addresses forbidden", false⟩
    else processUpstream shimT req (upstream u)

/-- JS truthiness of the `url` query parameter. -/
def jsTruthy : Option String → Option String
  | some s => if s = "" then none else some s
  | none => none

/-- The request handler of `src/api/rep.js`, with the upstream fetch as an
oracle from the fetched URL string to its outcome. -/
def handler (shimT : ShimT) (req : Req) (upstream : String → FetchOutcome) :
    HandlerResult :=
  if req.method = "OPTIONS" then ⟨200, "", false⟩
  else if req.method ≠ "GET" && req.method ≠ "POST" then
    ⟨405, "Method not allowed", false⟩
  else
    match jsTruthy req.urlParam with
    | some u0 => afterUrl shimT req upstream u0
    | none =>
      if req.otherParams.isEmpty then ⟨400, "Missing url parameter", false⟩
      else
        match reconstructUrl req.otherParams req.referer with
        | .error m => ⟨400, m, false⟩
        | .ok u0 => afterUrl shimT req upstream u0

/-! ### Fixtures and helper lemmas -/

deriving instance DecidableEq for Except

/-- A script template instance; the examples below never reach the injection
point (their bodies have no `<head>` tag), so its text is immaterial. -/
def shimT0 : ShimT := fun _ _ _ _ => ""

/-- A small passthrough upstream response. -/
def okResp : UpstreamResp := ⟨none, none, "http://a.com/x", "BODY"⟩

/-- The upstream oracle answering every fetch with `okResp`. -/
def okUpstream : String → FetchOutcome := fun _ => .success okResp

/-- A plain GET request for the given `url` parameter. -/
def reqOf (u : String) : Req := ⟨"GET", some u, [], none, "proxy.test", none⟩

/-- The proxy base `proxyBaseOf` derives for `reqOf _`. -/
def pbEx : String := "https://proxy.test/api/rep?url="

/-- `new URL("http://example.com/page")`. -/
def baseC6 : URL := ⟨"http", none, "example.com", none, "/page", none, none⟩

/-- `new URL("http://site.com/dir/page.html")`. -/
def baseB : URL := ⟨"http", none, "site.com", none, "/dir/page.html", none, none⟩

/-- `new URL("http://x.com/a/b/")`. -/
def base7 : URL := ⟨"http", none, "x.com", none, "/a/b/", none, none⟩

/-- `new URL("http://site.com/app/main.js")`. -/
def baseJ : URL := ⟨"http", none, "site.com", none, "/app/main.js", none, none⟩

/-- Strings with equal character lists are equal. -/
theorem strDataEq {a b : String} (h : a.data = b.data) : a = b := by
  cases a; cases b; exact congrArg String.mk h

/-- `String.append` on the character lists. -/
theorem dataAppend (a b : String) : (a ++ b).data = a.data ++ b.data := rfl

/-- `String.mk` inverts `String.data`. -/
theorem dataMk (l : List Char) : (String.mk l).data = l := rfl

/-- A list is a `listPfx` of itself extended by anything. -/
theorem listPfx_self_append (a b : List Char) : listPfx a (a ++ b) = true := by
  induction a with
  | nil => rfl
  | cons c t ih => simp [listPfx, ih]

/-- Appending to a string preserves it as a `startsWithS` prefix. -/
theorem startsWithS_self_append (pb e : String) : startsWithS (pb ++ e) pb = true := by
  have := listPfx_self_append pb.data e.data
  simpa [startsWithS, dataAppend] using this

/-! ### Claims -/

/-- C1: the claim states that every request whose target hostname matches the
deny-list patterns — including IPv6 loopback — gets 403 with no outbound
fetch.  The IPv4-literal and named-host parts do behave that way, but the
IPv6 patterns of `blockedPatterns` can never fire: a WHATWG `url.hostname`
serializes an IPv6 host with its brackets (`"[::1]"`), which `/^::1$/`,
`/^fe80:/i`, `/^fc00:/i` and `/^fd00:/i` do not match.  A request for
`http://[::1]/` — an IPv6-loopback target — therefore passes the guard and
the upstream fetch is issued, against the claim (and the guard's own evident
intent). -/
theorem c1_ipv6_loopback_bypasses_guard :
    handler shimT0 (reqOf "http://127.0.0.1/") okUpstream =
      ⟨403, "Access to private addresses forbidden", false⟩ ∧
    handler shimT0 (reqOf "http://localhost/x") okUpstream =
      ⟨403, "Access to private addresses forbidden", false⟩ ∧
    handler shimT0 (reqOf "http://metadata.google.internal/x") okUpstream =
      ⟨403, "Access to private addresses forbidden", false⟩ ∧
    handler shimT0 (reqOf "http://169.254.169.254/latest") okUpstream =
      ⟨403, "Access to private addresses forbidden", false⟩ ∧
    (URL.parse "http://[::1]/").map URL.hostname = some "[::1]" ∧
    hostBlocked "[::1]" = false ∧
    handler shimT0 (reqOf "http://[::1]/") okUpstream = ⟨200, "BODY", true⟩ := by
  refine ⟨by decide, by decide, by decide, by decide, by decide, by decide, by decide⟩

/-- C2: every malformed target-URL input — an undecodable percent-escape, a
decoded string failing the `^https?:\/\//i` test, or a string `new URL`
rejects — makes the handler answer 400 with the corresponding message and no
upstream fetch is issued.  `validateUrl` errs exactly on those three cases. -/
theorem c2_malformed_url_400_no_fetch (shimT : ShimT) (req : Req)
    (upstream : String → FetchOutcome) (u m : String)
    (hm : req.method = "GET") (hu : jsTruthy req.urlParam = some u)
    (hv : validateUrl u = .error m) :
    handler shimT req upstream = ⟨400, m, false⟩ := by
  simp [handler, afterUrl, hm, hu, hv]

/-- Witness for C2, covering all three failure modes at concrete inputs. -/
theorem c2_malformed_url_400_no_fetch_witness :
    (validateUrl "%zz" = .error "Invalid URL encoding" ∧
      handler shimT0 (reqOf "%zz") okUpstream = ⟨400, "Invalid URL encoding", false⟩) ∧
    (validateUrl "ftp://x.com/" = .error "Invalid URL protocol" ∧
      handler shimT0 (reqOf "ftp://x.com/") okUpstream =
        ⟨400, "Invalid URL protocol", false⟩) ∧
    (validateUrl "http://" = .error "Malformed URL" ∧
      handler shimT0 (reqOf "http://") okUpstream = ⟨400, "Malformed URL", false⟩) :=
  ⟨⟨by decide, c2_malformed_url_400_no_fetch shimT0 (reqOf "%zz") okUpstream "%zz"
      "Invalid URL encoding" (by decide) (by decide) (by decide)⟩,
   ⟨by decide, c2_malformed_url_400_no_fetch shimT0 (reqOf "ftp://x.com/") okUpstream
      "ftp://x.com/" "Invalid URL protocol" (by decide) (by decide) (by decide)⟩,
   ⟨by decide, c2_malformed_url_400_no_fetch shimT0 (reqOf "http://") okUpstream
      "http://" "Malformed URL" (by decide) (by decide) (by decide)⟩⟩

/-- C4: once a fetch is issued, a deadline overrun (the 15-second timer
aborts the in-flight request, surfacing as `AbortError`) yields exactly 504
"Request timeout", and every other fetch rejection yields exactly 500 with
the error message — for all requests and templates, so the two classes are
never conflated; plus both behaviours observed end-to-end through `handler`. -/
theorem c4_timeout_504_other_failures_500 :
    (∀ shimT req, processUpstream shimT req .timeout = ⟨504, "Request timeout", true⟩) ∧
    (∀ shimT req m, processUpstream shimT req (.netError m) =
      ⟨500, "Fetch failed: " ++ m, true⟩) ∧
    handler shimT0 (reqOf "https://slow.example/") (fun _ => .timeout) =
      ⟨504, "Request timeout", true⟩ ∧
    handler shimT0 (reqOf "https://down.example/") (fun _ => .netError "ECONNREFUSED") =
      ⟨500, "Fetch failed: ECONNREFUSED", true⟩ :=
  ⟨fun _ _ => rfl, fun _ _ _ => rfl, by decide, by decide⟩

/-- An upstream response with no declared `content-length` and a body one
byte past the 10 MiB cap. -/
def bigResp : UpstreamResp :=
  ⟨none, some "application/octet-stream", "http://a.com/x",
   String.mk (List.replicate (capBytes + 1) 'a')⟩

/-- C3 counterexample: the claim states that the delivered body never exceeds
the 10 MiB cap even without a declared `Content-Length`.  But the handler
only consults the `Content-Length` header; the passthrough path hands the
entire `arrayBuffer()` result to the client, so an upstream body of
10 MiB + 1 bytes with no declared length is delivered whole with status
200. -/
theorem c3_counterexample_uncapped_streamed_body :
    (handler shimT0 (reqOf "http://a.com/x") (fun _ => .success bigResp)).status = 200 ∧
    (handler shimT0 (reqOf "http://a.com/x") (fun _ => .success bigResp)).body.length =
      capBytes + 1 ∧
    capBytes < capBytes + 1 := by
  refine ⟨rfl, ?_, Nat.lt_succ_self _⟩
  have hb : (handler shimT0 (reqOf "http://a.com/x") (fun _ => .success bigResp)).body =
      String.mk (List.replicate (capBytes + 1) 'a') := rfl
  rw [hb]
  simp [String.length, List.length_replicate]

/-- C3 amended: a declared `Content-Length` above 10 MiB yields 413 and the
upstream body is never delivered (the response carries the error text
instead); but a body without a declared `Content-Length` (or whose
classification falls through to passthrough) is delivered in full, with no
truncation or cap. -/
theorem c3_amended_content_length_cap_only :
    (∀ shimT req resp, clExceeds resp.contentLength = true →
       processUpstream shimT req (.success resp) = ⟨413, "Content too large", true⟩) ∧
    (∀ shimT req resp base,
       clExceeds resp.contentLength = false →
       URL.parse resp.finalUrl = some base →
       strContains (resp.contentType.getD "") "text/html" = false →
       (strContains (resp.contentType.getD "") "text/css" ||
        endsWithStr base.pathname ".css") = false →
       (strContains (resp.contentType.getD "") "javascript" ||
        strContains (resp.contentType.getD "") "ecmascript" ||
        endsWithStr base.pathname ".js") = false →
       processUpstream shimT req (.success resp) = ⟨200, resp.body, true⟩) := by
  constructor
  · intro shimT req resp h
    simp [processUpstream, h]
  · intro shimT req resp base h0 h1 h2 h3 h4
    simp [processUpstream, h0, h1, h2, h3, h4]

/-- Witness for C3's amended theorem: the spec's 11 MiB declared length gives
413 with the error text as body, and an undeclared length flows through
unchanged. -/
theorem c3_amended_content_length_cap_only_witness :
    clExceeds (some "11534336") = true ∧
    processUpstream shimT0 (reqOf "http://a.com/x")
        (.success ⟨some "11534336", none, "http://a.com/x", "BODY"⟩) =
      ⟨413, "Content too large", true⟩ ∧
    processUpstream shimT0 (reqOf "http://a.com/x") (.success okResp) =
      ⟨200, "BODY", true⟩ :=
  ⟨by decide,
   c3_amended_content_length_cap_only.1 shimT0 (reqOf "http://a.com/x")
     ⟨some "11534336", none, "http://a.com/x", "BODY"⟩ (by decide),
   c3_amended_content_length_cap_only.2 shimT0 (reqOf "http://a.com/x") okResp
     ⟨"http", none, "a.com", none, "/x", none, none⟩ (by decide) (by decide)
     (by decide) (by decide) (by decide)⟩

/-- C5 counterexample: the claim states the HTML rewrite leaves every
fragment (and `javascript:`/`blob:`) reference unchanged, but the inline-CSS
`url(...)` pass only exempts proxy-prefixed and `data:` references: on the
body `url(#f)` it resolves the fragment against the base and rewrites it. -/
theorem c5_counterexample_css_fragment_rewritten :
    cssUrlPass pbEx baseB "url(#f)" =
      "url(" ++ sqStr ++ pbEx ++ "http%3A%2F%2Fsite.com%2Fdir%2Fpage.html%23f" ++
        sqStr ++ ")" ∧
    cssUrlPass pbEx baseB "url(#f)" ≠ "url(#f)" ∧
    htmlRewrite shimT0 pbEx baseB "url(#f)" ≠ "url(#f)" ∧
    (URL.resolve "#f" baseB).map URL.href = some "http://site.com/dir/page.html#f" := by
  refine ⟨by decide, by decide, by decide, by decide⟩

/-- C5 amended: the attribute pass leaves unchanged every reference already
prefixed by the proxy base or using `data:`, `javascript:`, `blob:` or a
fragment; the inline-CSS `url(...)` pass leaves unchanged only proxy-prefixed
and `data:` references (fragment, `javascript:` and `blob:` references inside
`url(...)` are rewritten).  Every reference either pass produces starts with
the proxy base, so re-running the rewrite on its own output leaves those
references unchanged and never double-encodes a URL. -/
theorem c5_amended_noop_rule_and_idempotence :
    (∀ pb base g1 g2 g3 g4, attrNoOp pb g3 = true →
       attrReplacer pb base g1 g2 g3 g4 = g1 ++ g2 ++ g3 ++ g4) ∧
    (∀ pb base m cap, (startsWithS cap pb || startsWithS cap "data:") = true →
       cssUrlReplacer pb base m cap = m) ∧
    (∀ pb base g1 g2 e g4,
       attrReplacer pb base g1 g2 (pb ++ e) g4 = g1 ++ g2 ++ (pb ++ e) ++ g4) ∧
    (∀ pb base m e, cssUrlReplacer pb base m (pb ++ e) = m) := by
  have hattr : ∀ pb base g1 g2 g3 g4, attrNoOp pb g3 = true →
      attrReplacer pb base g1 g2 g3 g4 = g1 ++ g2 ++ g3 ++ g4 := by
    intro pb base g1 g2 g3 g4 h
    simp [attrReplacer, h]
  have hcss : ∀ pb base m cap, (startsWithS cap pb || startsWithS cap "data:") = true →
      cssUrlReplacer pb base m cap = m := by
    intro pb base m cap h
    simp [cssUrlReplacer, h]
  refine ⟨hattr, hcss, ?_, ?_⟩
  · intro pb base g1 g2 e g4
    exact hattr pb base g1 g2 (pb ++ e) g4
      (by simp [attrNoOp, startsWithS_self_append])
  · intro pb base m e
    exact hcss pb base m (pb ++ e) (by simp [startsWithS_self_append])

/-- Witness for C5's amended theorem: the no-op rules at concrete inputs. -/
theorem c5_amended_noop_rule_and_idempotence_witness :
    attrNoOp pbEx "#top" = true ∧
    attrReplacer pbEx baseB "<a " "href=\"" "#top" "\"" =
      "<a " ++ "href=\"" ++ "#top" ++ "\"" ∧
    (startsWithS "data:image/png;base64,xx" pbEx ||
      startsWithS "data:image/png;base64,xx" "data:") = true ∧
    cssUrlReplacer pbEx baseB "url(data:image/png;base64,xx)" "data:image/png;base64,xx" =
      "url(data:image/png;base64,xx)" :=
  ⟨by decide,
   c5_amended_noop_rule_and_idempotence.1 pbEx baseB "<a " "href=\"" "#top" "\"" (by decide),
   by decide,
   c5_amended_noop_rule_and_idempotence.2.1 pbEx baseB "url(data:image/png;base64,xx)"
     "data:image/png;base64,xx" (by decide)⟩

/-- C6: rewriting `<a href="/path?q=1">` against base
`http://example.com/page` produces exactly
`href="<proxyBase>http%3A%2F%2Fexample.com%2Fpath%3Fq%3D1"`, for every proxy
base that is not itself a prefix of the attribute value (the handler's proxy
bases all start with a scheme, so they never are). -/
theorem c6_anchor_rewrite_exact_encoding (pb : String)
    (h : startsWithS "/path?q=1" pb = false) :
    attrPass pb baseC6 "<a href=\"/path?q=1\">" =
      "<a href=\"" ++ pb ++ "http%3A%2F%2Fexample.com%2Fpath%3Fq%3D1" ++ "\">" ∧
    URL.parse "http://example.com/page" = some baseC6 := by
  refine ⟨?_, by decide⟩
  have hs : attrSplit ("<a href=\"/path?q=1\">".data.length) ("<a href=\"/path?q=1\">".data)
      = [AChunk.hit "<a " "href=\"" "/path?q=1" "\"", AChunk.lit '>'] := by decide
  have h1 : attrNoOp pb "/path?q=1" = false := by
    unfold attrNoOp; rw [h]; decide
  have h2 : strContains "href=\"" "srcset" = false := by decide
  have h3 : startsWithS "/path?q=1" "?" = false := by decide
  have h4 : startsWithS "/path?q=1" "&" = false := by decide
  have h5 : startsWithS "/path?q=1" "/" = true := by decide
  have h6 : startsWithS "/path?q=1" "//" = false := by decide
  have he : encodeURIComponent (baseC6.origin ++ "/path?q=1") =
      "http%3A%2F%2Fexample.com%2Fpath%3Fq%3D1" := by decide
  unfold attrPass
  rw [hs]
  simp only [List.map_cons, List.map_nil, attrRender, attrReplacer, h1, h2, h3, h4, h5, h6, he]
  apply strDataEq
  simp [joinStr, dataAppend, dataMk]

/-- Witness for C6 at the proxy base the handler itself derives. -/
theorem c6_anchor_rewrite_exact_encoding_witness :
    startsWithS "/path?q=1" pbEx = false ∧
    attrPass pbEx baseC6 "<a href=\"/path?q=1\">" =
      "<a href=\"" ++ pbEx ++ "http%3A%2F%2Fexample.com%2Fpath%3Fq%3D1" ++ "\">" :=
  ⟨by decide, (c6_anchor_rewrite_exact_encoding pbEx (by decide)).1⟩

/-- C7 counterexample: the claim states `@import "foo.css"` against base
`http://x.com/a/b/` rewrites to the encoding of `http://x.com/a/foo.css`,
but with the base path ending in a slash WHATWG resolution keeps the `b`
segment: the code produces the encoding of `http://x.com/a/b/foo.css`, and
the claimed string appears nowhere in the output. -/
theorem c7_counterexample_base_last_segment_kept :
    cssImportPass pbEx base7 "@import \"foo.css\"" =
      "@import \"" ++ pbEx ++ "http%3A%2F%2Fx.com%2Fa%2Fb%2Ffoo.css" ++ "\"" ∧
    cssImportPass pbEx base7 "@import \"foo.css\"" ≠
      "@import \"" ++ pbEx ++ "http%3A%2F%2Fx.com%2Fa%2Ffoo.css" ++ "\"" ∧
    strContains (cssImportPass pbEx base7 "@import \"foo.css\"")
      "http%3A%2F%2Fx.com%2Fa%2Ffoo.css" = false ∧
    URL.parse "http://x.com/a/b/" = some base7 ∧
    (URL.resolve "foo.css" base7).map URL.href = some "http://x.com/a/b/foo.css" := by
  refine ⟨by decide, by decide, by decide, by decide, by decide⟩

/-- C7 amended: `@import "foo.css"` against base `http://x.com/a/b/` rewrites
to `@import "<proxyBase><encoded http://x.com/a/b/foo.css>"` — the import
target is resolved against the base (whose trailing-slash path keeps its last
segment) and replaced by the proxy base plus the percent-encoded absolute
URL, for every proxy base that is not itself a prefix of `foo.css`. -/
theorem c7_amended_import_resolved_against_base (pb : String)
    (h : startsWithS "foo.css" pb = false) :
    cssImportPass pb base7 "@import \"foo.css\"" =
      "@import \"" ++ pb ++ "http%3A%2F%2Fx.com%2Fa%2Fb%2Ffoo.css" ++ "\"" := by
  have hs : cssImportSplit ("@import \"foo.css\"".data.length) ("@import \"foo.css\"".data)
      = [IChunk.hit "@import \"foo.css\"" "\"" "foo.css"] := by decide
  have hd : startsWithS "foo.css" "data:" = false := by decide
  have hr : URL.resolve "foo.css" base7 =
      some ⟨"http", none, "x.com", none, "/a/b/foo.css", none, none⟩ := by decide
  have he : encodeURIComponent
        (URL.href ⟨"http", none, "x.com", none, "/a/b/foo.css", none, none⟩) =
      "http%3A%2F%2Fx.com%2Fa%2Fb%2Ffoo.css" := by decide
  unfold cssImportPass
  rw [hs]
  simp only [List.map_cons, List.map_nil, cssImportRender, cssImportReplacer, h, hd, hr, he]
  apply strDataEq
  simp [joinStr, dataAppend, dataMk]

/-- Witness for C7's amended theorem at the handler's own proxy base. -/
theorem c7_amended_import_resolved_against_base_witness :
    startsWithS "foo.css" pbEx = false ∧
    cssImportPass pbEx base7 "@import \"foo.css\"" =
      "@import \"" ++ pbEx ++ "http%3A%2F%2Fx.com%2Fa%2Fb%2Ffoo.css" ++ "\"" :=
  ⟨by decide, c7_amended_import_resolved_against_base pbEx (by decide)⟩

/-- C8: the JS rewrite touches a module specifier only in `import(...)` calls
and `from '...'` clauses; the first conjunct proves, for every input, that a
bare specifier (no `http://`, `https://`, `.` or `/` prefix) is left
unchanged, and the second proves, for every specifier carrying one of those
prefixes whose resolution against the fetch base succeeds, that the match is
rewritten by substituting the proxy base plus the percent-encoded resolved
URL for the specifier.  The closed conjuncts exercise the pass end-to-end on
a bare side-effect `import "lodash"` (which the regex does not even match), a
bare `from` clause, and `./`-, `https://`-, `http://`-, `/`- and
`../`-prefixed specifiers. -/
theorem c8_js_bare_untouched_rel_abs_rewritten :
    (∀ pb base m cap,
       startsWithS cap "http://" = false → startsWithS cap "https://" = false →
       startsWithS cap "." = false → startsWithS cap "/" = false →
       jsReplacer pb base m cap = m) ∧
    (∀ pb base m cap u,
       (startsWithS cap "http://" || startsWithS cap "https://" ||
        startsWithS cap "." || startsWithS cap "/") = true →
       URL.resolve cap base = some u →
       jsReplacer pb base m cap =
         replaceFirstStr m cap (pb ++ encodeURIComponent u.href)) ∧
    jsPass pbEx baseJ "import \"lodash\"" = "import \"lodash\"" ∧
    jsPass pbEx baseJ "import x from \"lodash\";" = "import x from \"lodash\";" ∧
    jsPass pbEx baseJ "import x from \"./utils.js\";" =
      "import x from \"" ++ pbEx ++ "http%3A%2F%2Fsite.com%2Fapp%2Futils.js" ++ "\";" ∧
    jsPass pbEx baseJ "import(\"https://cdn.x.com/lib.js\")" =
      "import(\"" ++ pbEx ++ "https%3A%2F%2Fcdn.x.com%2Flib.js" ++ "\")" ∧
    jsPass pbEx baseJ "import h from \"http://other.com/h.js\";" =
      "import h from \"" ++ pbEx ++ "http%3A%2F%2Fother.com%2Fh.js" ++ "\";" ∧
    jsPass pbEx baseJ "import m from \"/mod.js\";" =
      "import m from \"" ++ pbEx ++ "http%3A%2F%2Fsite.com%2Fmod.js" ++ "\";" ∧
    jsPass pbEx baseJ "import u from \"../up.js\";" =
      "import u from \"" ++ pbEx ++ "http%3A%2F%2Fsite.com%2Fup.js" ++ "\";" := by
  refine ⟨?_, ?_, by decide, by decide, by decide, by decide, by decide, by decide,
    by decide⟩
  · intro pb base m cap h1 h2 h3 h4
    simp [jsReplacer, h1, h2, h3, h4]
  · intro pb base m cap u hpre hres
    cases h1 : (startsWithS cap "http://" || startsWithS cap "https://") with
    | true => simp [jsReplacer, h1, hres]
    | false =>
      have hab := Bool.or_eq_false_iff.mp h1
      rw [hab.1, hab.2] at hpre
      simp only [Bool.false_or] at hpre
      simp [jsReplacer, h1, hpre, hres]

/-- Witness for C8's universally quantified conjuncts: a bare specifier left
unchanged and a dot-relative specifier rewritten, at concrete inputs. -/
theorem c8_js_bare_untouched_rel_abs_rewritten_witness :
    (startsWithS "lodash" "http://" = false ∧
      startsWithS "lodash" "https://" = false ∧
      startsWithS "lodash" "." = false ∧
      startsWithS "lodash" "/" = false ∧
      jsReplacer pbEx baseJ "from \"lodash\"" "lodash" = "from \"lodash\"") ∧
    ((startsWithS "./utils.js" "http://" || startsWithS "./utils.js" "https://" ||
      startsWithS "./utils.js" "." || startsWithS "./utils.js" "/") = true ∧
     URL.resolve "./utils.js" baseJ =
       some ⟨"http", none, "site.com", none, "/app/utils.js", none, none⟩ ∧
     jsReplacer pbEx baseJ "from \"./utils.js\"" "./utils.js" =
       replaceFirstStr "from \"./utils.js\"" "./utils.js"
         (pbEx ++ encodeURIComponent
           (URL.href ⟨"http", none, "site.com", none, "/app/utils.js", none, none⟩))) :=
  ⟨⟨by decide, by decide, by decide, by decide,
    c8_js_bare_untouched_rel_abs_rewritten.1 pbEx baseJ "from \"lodash\"" "lodash"
      (by decide) (by decide) (by decide) (by decide)⟩,
   ⟨by decide, by decide,
    c8_js_bare_untouched_rel_abs_rewritten.2.1 pbEx baseJ "from \"./utils.js\""
      "./utils.js" ⟨"http", none, "site.com", none, "/app/utils.js", none, none⟩
      (by decide) (by decide)⟩⟩

/-- C9: on a GET request with query parameters but no (truthy) `url`
parameter, a missing referer, a referer without an embedded `url` parameter,
and a referer whose embedded `url` cannot be decoded all answer 400 with no
fetch; only a usable referer hands a reconstructed target — the referer's
origin, the heuristic path, and the form-encoded current query parameters —
to the normal validation pipeline (the closed conjuncts exercise each case,
including the Google-search and path-preserving heuristics). -/
theorem c9_form_resubmission_recovery :
    (∀ shimT req upstream, req.method = "GET" → jsTruthy req.urlParam = none →
       req.otherParams.isEmpty = false →
       (∀ m, reconstructUrl req.otherParams req.referer = .error m →
          handler shimT req upstream = ⟨400, m, false⟩) ∧
       (∀ u, reconstructUrl req.otherParams req.referer = .ok u →
          handler shimT req upstream = afterUrl shimT req upstream u)) ∧
    reconstructUrl [("q", "cats")] none = .error "Missing url parameter (no referer)" ∧
    reconstructUrl [("q", "cats")] (some "https://proxy.test/api/rep") =
      .error "Missing url parameter - no base URL in referer" ∧
    reconstructUrl [("q", "cats")] (some "https://proxy.test/api/rep?url=%zz") =
      .error "Error: URI malformed" ∧
    reconstructUrl [("q", "cats")]
        (some "https://proxy.test/api/rep?url=https%3A%2F%2Fwww.google.com%2F") =
      .ok "https://www.google.com/search?q=cats" ∧
    reconstructUrl [("a", "b")]
        (some "https://proxy.test/api/rep?url=https%3A%2F%2Fsite.com%2Fdir%2Fpg") =
      .ok "https://site.com/dir/pg?a=b" := by
  refine ⟨?_, by decide, by decide, by decide, by decide, by decide⟩
  intro shimT req upstream hm hu hp
  constructor
  · intro m hr
    simp [handler, hm, hu, hp, hr]
  · intro u hr
    simp [handler, hm, hu, hp, hr]

/-- Witness for C9's universally quantified conjunct: the no-referer case
end-to-end through the handler. -/
theorem c9_form_resubmission_recovery_witness :
    handler shimT0 ⟨"GET", none, [("q", "cats")], none, "proxy.test", none⟩ okUpstream =
      ⟨400, "Missing url parameter (no referer)", false⟩ :=
  (c9_form_resubmission_recovery.1 shimT0
      ⟨"GET", none, [("q", "cats")], none, "proxy.test", none⟩ okUpstream
      rfl rfl (by decide)).1
    "Missing url parameter (no referer)" (by decide)

/-- A response whose HTML body mixes an unresolvable reference (`http://[`,
which `new URL` rejects) with an ordinary root-relative one. -/
def mixResp : UpstreamResp :=
  ⟨none, some "text/html", "http://site.com/dir/page.html",
   "<a href=\"http://[\"><img src=\"/pic.png\">"⟩

/-- C10: whenever resolving one reference throws, each replacer returns the
match unchanged (the four universally quantified conjuncts, one per rewrite
site), and the handler still serves the rest of the rewritten body with
status 200 — shown end-to-end on a body mixing a bad and a good reference. -/
theorem c10_bad_reference_never_fails_response :
    (∀ pb base g1 g2 g3 g4, attrNoOp pb g3 = false →
       strContains g2 "srcset" = false →
       startsWithS g3 "?" = false → startsWithS g3 "&" = false →
       startsWithS g3 "/" = false →
       URL.resolve g3 base = none →
       attrReplacer pb base g1 g2 g3 g4 = g1 ++ g2 ++ g3 ++ g4) ∧
    (∀ pb base m cap, (startsWithS cap pb || startsWithS cap "data:") = false →
       URL.resolve cap base = none → cssUrlReplacer pb base m cap = m) ∧
    (∀ pb base m q cap, (startsWithS cap pb || startsWithS cap "data:") = false →
       URL.resolve cap base = none → cssImportReplacer pb base m q cap = m) ∧
    (∀ pb base m cap, URL.resolve cap base = none → jsReplacer pb base m cap = m) ∧
    processUpstream shimT0 (reqOf "http://site.com/dir/page.html") (.success mixResp) =
      ⟨200, "<a href=\"http://[\"><img src=\"" ++ pbEx ++
        "http%3A%2F%2Fsite.com%2Fpic.png" ++ "\">", true⟩ := by
  refine ⟨?_, ?_, ?_, ?_, by decide⟩
  · intro pb base g1 g2 g3 g4 h1 h2 h3 h4 h5 h6
    simp [attrReplacer, h1, h2, h3, h4, h5, h6]
  · intro pb base m cap h1 h2
    simp [cssUrlReplacer, h1, h2]
  · intro pb base m q cap h1 h2
    simp [cssImportReplacer, h1, h2]
  · intro pb base m cap h
    simp [jsReplacer, h]

/-- Witness for C10's universally quantified conjuncts at a concrete
unresolvable reference. -/
theorem c10_bad_reference_never_fails_response_witness :
    attrNoOp "zzz" "http://[" = false ∧
    strContains "href=\"" "srcset" = false ∧
    startsWithS "http://[" "?" = false ∧
    startsWithS "http://[" "&" = false ∧
    startsWithS "http://[" "/" = false ∧
    URL.resolve "http://[" baseB = none ∧
    attrReplacer "zzz" baseB "<a " "href=\"" "http://[" "\"" =
      "<a " ++ "href=\"" ++ "http://[" ++ "\"" :=
  ⟨by decide, by decide, by decide, by decide, by decide, by decide,
   c10_bad_reference_never_fails_response.1 "zzz" baseB "<a " "href=\"" "http://[" "\""
     (by decide) (by decide) (by decide) (by decide) (by decide) (by decide)⟩

end Refi
